import Mathlib

/-!
Verification of the TFDataPipeline data-feeding pipeline (TFDataPipeline.py).

We shallowly embed the packing, chunking, reader and provider logic:
pure functions become Lean functions, the TF-variable state of the
batching queue becomes explicit state passing, queue contents become
lists, and fallible code returns `Except`.
-/

set_option maxHeartbeats 1000000

namespace TFDP

/-- Maximum of a list of naturals, 0 for the empty list
(models the running `cur_max_seq_len` maximum and `tf.reduce_max`). -/
def listMax (xs : List Nat) : Nat := xs.foldr max 0

/-- State carried by `TFBatchingQueue` across enqueue steps:
the TF variables `batch_num` and `max_seq_len`
(TFDataPipeline.py lines 498-499), i.e. the number of members accumulated
for the batch under construction and the maximum time length seen among them. -/
structure TFBatchingState where
  cur_batch_num : Nat
  cur_max_seq_len : Nat

/-- Shallow embedding of `TFBatchingQueue._make_enqueue_op`
(TFDataPipeline.py lines 528-569), sequentialized per dequeued record:
`epoch_end` is the dequeued record's sentinel flag (`stop`), `seq_len` its
time length on the default key. First `cur_batch_num` is incremented by
`tf.where(stop, 0, 1)` and `cur_max_seq_len` is raised to `seq_len`; then
the batch-num to flush (if any) is decided:
on `stop` flush `cur_batch_num` and reset; else if
`cur_batch_num >= max_seqs` flush `cur_batch_num` and reset; else if
`cur_batch_num >= 2` and `cur_max_seq_len * cur_batch_num > batch_size`
flush `cur_batch_num - 1` and keep the new member as sole pending content.
Returns the flushed batch-num (iff anything was enqueued into
`_tf_batch_nums`) and the new variable state. -/
def make_enqueue_op (max_seqs batch_size : Nat) (s : TFBatchingState)
    (epoch_end : Bool) (seq_len : Nat) : Option Nat × TFBatchingState :=
  let cur_batch_num := s.cur_batch_num + (if epoch_end then 0 else 1)
  let cur_max_seq_len := max s.cur_max_seq_len seq_len
  if epoch_end then
    (some cur_batch_num, ⟨0, 0⟩)
  else if max_seqs ≤ cur_batch_num then
    (some cur_batch_num, ⟨0, 0⟩)
  else if 2 ≤ cur_batch_num ∧ batch_size < cur_max_seq_len * cur_batch_num then
    (some (cur_batch_num - 1), ⟨1, seq_len⟩)
  else
    (none, ⟨cur_batch_num, cur_max_seq_len⟩)

/-- Instrumented version of `make_enqueue_op` that carries the pending
members themselves (a list of records of any type `α`, with `len` giving a
record's time length and `stop` its `epoch_end` flag) instead of only their
count and maximum length. The branch conditions are computed from the
pending list exactly as the counters would be; `make_enqueue_op_proj` below
proves that this machine projects onto `make_enqueue_op`. -/
def make_enqueue_opI {α : Type} (max_seqs batch_size : Nat) (len : α → Nat)
    (stop : α → Bool) (pending : List α) (v : α) : Option (List α) × List α :=
  let members := if stop v then pending else pending ++ [v]
  if stop v then
    (some members, [])
  else if max_seqs ≤ members.length then
    (some members, [])
  else if 2 ≤ members.length ∧ batch_size < listMax (members.map len) * members.length then
    (some pending, [v])
  else
    (none, members)

/-- Projection of an instrumented pending list to the raw counter state. -/
def projState {α : Type} (len : α → Nat) (pending : List α) : TFBatchingState :=
  ⟨pending.length, listMax (pending.map len)⟩

lemma listMax_append (xs ys : List Nat) :
    listMax (xs ++ ys) = max (listMax xs) (listMax ys) := by
  induction xs with
  | nil => simp [listMax]
  | cons a xs ih =>
    simp only [listMax, List.foldr_cons, List.cons_append] at *
    omega

lemma listMax_singleton (a : Nat) : listMax [a] = a := by
  simp [listMax]

lemma foldr_max_init (xs : List Nat) (b : Nat) :
    xs.foldr max b = max (xs.foldr max 0) b := by
  induction xs with
  | nil => simp
  | cons a xs ih => simp only [List.foldr_cons, ih]; omega

/-- The instrumented batching step projects onto the raw one: starting from
the projected counter state, `make_enqueue_op` flushes exactly the length of
the batch the instrumented machine flushes, and ends in the projection of
the instrumented machine's new pending list. -/
lemma make_enqueue_op_proj {α : Type} (max_seqs batch_size : Nat) (len : α → Nat)
    (stop : α → Bool) (pending : List α) (v : α) :
    make_enqueue_op max_seqs batch_size (projState len pending) (stop v) (len v)
      = ((make_enqueue_opI max_seqs batch_size len stop pending v).1.map List.length,
         projState len (make_enqueue_opI max_seqs batch_size len stop pending v).2) := by
  cases hstop : stop v with
  | true =>
    simp [make_enqueue_op, make_enqueue_opI, projState, hstop, listMax]
  | false =>
    have hm : listMax ((pending ++ [v]).map len)
        = max (listMax (pending.map len)) (len v) := by
      rw [List.map_append, listMax_append]
      simp [listMax_singleton]
    have hl : (pending ++ [v]).length = pending.length + 1 := by simp
    simp only [make_enqueue_op, make_enqueue_opI, projState, hstop, if_false,
      Bool.false_eq_true, hm, hl]
    split_ifs with h1 h2
    · simp [listMax]
    · simp [listMax_singleton]
    · simp [hl, listMax_append, listMax_singleton]

/-- The full observable trace of the batching queue:
`flushed` is the list of sealed batches (each a list of its members, in
insertion order), `pending` the members accumulated for the batch under
construction, `out_queue` everything enqueued into `_tf_out_queue`
(every dequeued record, sentinels included, line 568). -/
structure BatcherRun (α : Type) where
  flushed : List (List α)
  pending : List α
  out_queue : List α

/-- One iteration of `TFBatchingQueue._make_enqueue_loop_op` on the
instrumented trace: run `make_enqueue_opI`, record a sealed batch if one was
flushed, and unconditionally enqueue the record into the out queue. -/
def batcherStep {α : Type} (max_seqs batch_size : Nat) (len : α → Nat)
    (stop : α → Bool) (r : BatcherRun α) (v : α) : BatcherRun α :=
  let res := make_enqueue_opI max_seqs batch_size len stop r.pending v
  ⟨r.flushed ++ res.1.toList, res.2, r.out_queue ++ [v]⟩

/-- Run of the batching queue over a stream of dequeued records, from the
initial state (`_init_op` zeroes both variables, empty queues). -/
def batcherRun {α : Type} (max_seqs batch_size : Nat) (len : α → Nat)
    (stop : α → Bool) (items : List α) : BatcherRun α :=
  items.foldl (batcherStep max_seqs batch_size len stop) ⟨[], [], []⟩

lemma foldl_batcherStep_pending {α : Type} (max_seqs batch_size : Nat) (len : α → Nat)
    (stop : α → Bool) (items : List α) :
    ∀ r : BatcherRun α,
      (items.foldl (batcherStep max_seqs batch_size len stop) r).pending
        = items.foldl (fun p v => (make_enqueue_opI max_seqs batch_size len stop p v).2)
            r.pending := by
  induction items with
  | nil => intro r; rfl
  | cons v items ih =>
    intro r
    rw [List.foldl_cons, List.foldl_cons, ih]
    rfl

/-- Run-level projection: evolving the raw TF variables of
`_make_enqueue_op` over a stream (from their zero initialization) lands
exactly on the projection of the instrumented run's pending list, so
`cur_batch_num` always equals the pending member count and
`cur_max_seq_len` their maximum time length. -/
lemma batcherRun_proj {α : Type} (max_seqs batch_size : Nat) (len : α → Nat)
    (stop : α → Bool) (items : List α) :
    items.foldl (fun s v => (make_enqueue_op max_seqs batch_size s (stop v) (len v)).2)
        ⟨0, 0⟩
      = projState len (batcherRun max_seqs batch_size len stop items).pending := by
  rw [batcherRun, foldl_batcherStep_pending]
  have h : ∀ (ys : List α) (pending : List α),
      ys.foldl (fun s v => (make_enqueue_op max_seqs batch_size s (stop v) (len v)).2)
          (projState len pending)
        = projState len
            (ys.foldl (fun p v => (make_enqueue_opI max_seqs batch_size len stop p v).2)
              pending) := by
    intro ys
    induction ys with
    | nil => intro pending; rfl
    | cons v ys ih =>
      intro pending
      rw [List.foldl_cons, List.foldl_cons,
        show (make_enqueue_op max_seqs batch_size (projState len pending) (stop v) (len v)).2
            = projState len (make_enqueue_opI max_seqs batch_size len stop pending v).2 from
          congrArg Prod.snd
            (make_enqueue_op_proj max_seqs batch_size len stop pending v),
        ih]
  exact h items []

/-- Invariant of the pending accumulator between enqueue steps:
fewer than `max_seqs` members are pending, and as soon as at least two are
pending, their maximum length times their count is within `batch_size`. -/
def pendingInv {α : Type} (max_seqs batch_size : Nat) (len : α → Nat)
    (pending : List α) : Prop :=
  pending.length < max_seqs ∧
    (2 ≤ pending.length → listMax (pending.map len) * pending.length ≤ batch_size)

/-- What actually holds of every sealed batch: the member count never
exceeds `max_seqs`, and every sealed batch with at least two members that
was not sealed by the member-cap rule (i.e. whose count is below
`max_seqs`) is within the `batch_size` budget. -/
def sealedBatchOk {α : Type} (max_seqs batch_size : Nat) (len : α → Nat)
    (b : List α) : Prop :=
  b.length ≤ max_seqs ∧
    (2 ≤ b.length → b.length < max_seqs → b.length * listMax (b.map len) ≤ batch_size)

lemma make_enqueue_opI_stop {α : Type} (max_seqs batch_size : Nat) (len : α → Nat)
    (stop : α → Bool) (pending : List α) (v : α) (hstop : stop v = true) :
    make_enqueue_opI max_seqs batch_size len stop pending v = (some pending, []) := by
  simp [make_enqueue_opI, hstop]

lemma make_enqueue_opI_cap {α : Type} (max_seqs batch_size : Nat) (len : α → Nat)
    (stop : α → Bool) (pending : List α) (v : α) (hstop : stop v = false)
    (h1 : max_seqs ≤ (pending ++ [v]).length) :
    make_enqueue_opI max_seqs batch_size len stop pending v
      = (some (pending ++ [v]), []) := by
  simp only [make_enqueue_opI, hstop, Bool.false_eq_true, if_false, if_pos h1]

lemma make_enqueue_opI_size {α : Type} (max_seqs batch_size : Nat) (len : α → Nat)
    (stop : α → Bool) (pending : List α) (v : α) (hstop : stop v = false)
    (h1 : ¬ max_seqs ≤ (pending ++ [v]).length)
    (h2 : 2 ≤ (pending ++ [v]).length ∧
      batch_size < listMax ((pending ++ [v]).map len) * (pending ++ [v]).length) :
    make_enqueue_opI max_seqs batch_size len stop pending v = (some pending, [v]) := by
  simp only [make_enqueue_opI, hstop, Bool.false_eq_true, if_false, if_neg h1, if_pos h2]

lemma make_enqueue_opI_add {α : Type} (max_seqs batch_size : Nat) (len : α → Nat)
    (stop : α → Bool) (pending : List α) (v : α) (hstop : stop v = false)
    (h1 : ¬ max_seqs ≤ (pending ++ [v]).length)
    (h2 : ¬ (2 ≤ (pending ++ [v]).length ∧
      batch_size < listMax ((pending ++ [v]).map len) * (pending ++ [v]).length)) :
    make_enqueue_opI max_seqs batch_size len stop pending v
      = (none, pending ++ [v]) := by
  simp only [make_enqueue_opI, hstop, Bool.false_eq_true, if_false, if_neg h1, if_neg h2]

lemma make_enqueue_opI_inv {α : Type} (max_seqs batch_size : Nat) (len : α → Nat)
    (stop : α → Bool) (pending : List α) (v : α)
    (hms : 1 ≤ max_seqs) (hinv : pendingInv max_seqs batch_size len pending) :
    pendingInv max_seqs batch_size len
        (make_enqueue_opI max_seqs batch_size len stop pending v).2 ∧
    ∀ b ∈ (make_enqueue_opI max_seqs batch_size len stop pending v).1.toList,
      sealedBatchOk max_seqs batch_size len b := by
  obtain ⟨hlen, hbudget⟩ := hinv
  cases hstop : stop v with
  | true =>
    rw [make_enqueue_opI_stop max_seqs batch_size len stop pending v hstop]
    refine ⟨⟨by simpa using hms, by simp⟩, ?_⟩
    intro b hb
    simp only [Option.toList_some, List.mem_singleton] at hb
    subst hb
    exact ⟨by omega, fun hb2 _ => by rw [Nat.mul_comm]; exact hbudget hb2⟩
  | false =>
    by_cases h1 : max_seqs ≤ (pending ++ [v]).length
    · rw [make_enqueue_opI_cap max_seqs batch_size len stop pending v hstop h1]
      refine ⟨⟨by simpa using hms, by simp⟩, ?_⟩
      intro b hb
      simp only [Option.toList_some, List.mem_singleton] at hb
      subst hb
      simp only [sealedBatchOk, List.length_append, List.length_singleton] at h1 ⊢
      exact ⟨by omega, fun _ hlt => by omega⟩
    · by_cases h2 : 2 ≤ (pending ++ [v]).length ∧
          batch_size < listMax ((pending ++ [v]).map len) * (pending ++ [v]).length
      · rw [make_enqueue_opI_size max_seqs batch_size len stop pending v hstop h1 h2]
        obtain ⟨h2a, _⟩ := h2
        simp only [List.length_append, List.length_singleton] at h1 h2a
        refine ⟨⟨by simp; omega, by simp⟩, ?_⟩
        intro b hb
        simp only [Option.toList_some, List.mem_singleton] at hb
        subst hb
        exact ⟨by omega, fun hb2 _ => by rw [Nat.mul_comm]; exact hbudget hb2⟩
      · rw [make_enqueue_opI_add max_seqs batch_size len stop pending v hstop h1 h2]
        push_neg at h2
        exact ⟨⟨Nat.lt_of_not_le h1, fun hge => h2 hge⟩, by simp⟩

lemma batcherStep_inv {α : Type} (max_seqs batch_size : Nat) (len : α → Nat)
    (stop : α → Bool) (r : BatcherRun α) (v : α)
    (hms : 1 ≤ max_seqs)
    (hinv : pendingInv max_seqs batch_size len r.pending)
    (hfl : ∀ b ∈ r.flushed, sealedBatchOk max_seqs batch_size len b) :
    pendingInv max_seqs batch_size len (batcherStep max_seqs batch_size len stop r v).pending ∧
    ∀ b ∈ (batcherStep max_seqs batch_size len stop r v).flushed,
      sealedBatchOk max_seqs batch_size len b := by
  obtain ⟨h1, h2⟩ := make_enqueue_opI_inv max_seqs batch_size len stop r.pending v hms hinv
  refine ⟨h1, ?_⟩
  intro b hb
  simp only [batcherStep, List.mem_append] at hb
  rcases hb with hb | hb
  · exact hfl b hb
  · exact h2 b hb

lemma batcherRun_inv {α : Type} (max_seqs batch_size : Nat) (len : α → Nat)
    (stop : α → Bool) (items : List α) (hms : 1 ≤ max_seqs) :
    pendingInv max_seqs batch_size len (batcherRun max_seqs batch_size len stop items).pending ∧
    ∀ b ∈ (batcherRun max_seqs batch_size len stop items).flushed,
      sealedBatchOk max_seqs batch_size len b := by
  suffices h : ∀ (r : BatcherRun α),
      pendingInv max_seqs batch_size len r.pending →
      (∀ b ∈ r.flushed, sealedBatchOk max_seqs batch_size len b) →
      pendingInv max_seqs batch_size len
          (items.foldl (batcherStep max_seqs batch_size len stop) r).pending ∧
      ∀ b ∈ (items.foldl (batcherStep max_seqs batch_size len stop) r).flushed,
        sealedBatchOk max_seqs batch_size len b by
    exact h ⟨[], [], []⟩ ⟨by simpa using hms, by simp [listMax]⟩ (by simp)
  induction items with
  | nil => intro r hinv hfl; exact ⟨hinv, hfl⟩
  | cons v items ih =>
    intro r hinv hfl
    obtain ⟨h1, h2⟩ := batcherStep_inv max_seqs batch_size len stop r v hms hinv hfl
    exact ih _ h1 h2

lemma batcherRun_append {α : Type} (max_seqs batch_size : Nat) (len : α → Nat)
    (stop : α → Bool) (xs ys : List α) :
    batcherRun max_seqs batch_size len stop (xs ++ ys)
      = ys.foldl (batcherStep max_seqs batch_size len stop)
          (batcherRun max_seqs batch_size len stop xs) := by
  simp [batcherRun, List.foldl_append]

lemma batcherStep_out_queue {α : Type} (max_seqs batch_size : Nat) (len : α → Nat)
    (stop : α → Bool) (r : BatcherRun α) (v : α) :
    (batcherStep max_seqs batch_size len stop r v).out_queue = r.out_queue ++ [v] := rfl

/-- Every dequeued record, sentinels included, is enqueued into
`_tf_out_queue` exactly once, in arrival order (line 568). -/
lemma batcherRun_out_queue {α : Type} (max_seqs batch_size : Nat) (len : α → Nat)
    (stop : α → Bool) (items : List α) :
    (batcherRun max_seqs batch_size len stop items).out_queue = items := by
  suffices h : ∀ (r : BatcherRun α),
      (items.foldl (batcherStep max_seqs batch_size len stop) r).out_queue
        = r.out_queue ++ items by
    simpa using h ⟨[], [], []⟩
  induction items with
  | nil => intro r; simp
  | cons v items ih =>
    intro r
    rw [List.foldl_cons, ih, batcherStep_out_queue]
    simp

lemma batcherStep_join {α : Type} (max_seqs batch_size : Nat) (len : α → Nat)
    (stop : α → Bool) (r : BatcherRun α) (v : α) (hstop : stop v = false) :
    (batcherStep max_seqs batch_size len stop r v).flushed.flatten
        ++ (batcherStep max_seqs batch_size len stop r v).pending
      = r.flushed.flatten ++ r.pending ++ [v] := by
  unfold batcherStep
  by_cases h1 : max_seqs ≤ (r.pending ++ [v]).length
  · rw [make_enqueue_opI_cap max_seqs batch_size len stop r.pending v hstop h1]
    simp
  · by_cases h2 : 2 ≤ (r.pending ++ [v]).length ∧
        batch_size < listMax ((r.pending ++ [v]).map len) * (r.pending ++ [v]).length
    · rw [make_enqueue_opI_size max_seqs batch_size len stop r.pending v hstop h1 h2]
      simp
    · rw [make_enqueue_opI_add max_seqs batch_size len stop r.pending v hstop h1 h2]
      simp

lemma batcherRun_join_aux {α : Type} (max_seqs batch_size : Nat) (len : α → Nat)
    (stop : α → Bool) :
    ∀ (items : List α) (r : BatcherRun α), (∀ x ∈ items, stop x = false) →
      (items.foldl (batcherStep max_seqs batch_size len stop) r).flushed.flatten
          ++ (items.foldl (batcherStep max_seqs batch_size len stop) r).pending
        = r.flushed.flatten ++ r.pending ++ items := by
  intro items
  induction items with
  | nil => intro r _; simp
  | cons v items ih =>
    intro r hall
    rw [List.foldl_cons,
      ih _ (fun x hx => hall x (List.mem_cons_of_mem v hx)),
      batcherStep_join max_seqs batch_size len stop r v (hall v (List.mem_cons_self v items))]
    simp

/-- Conservation over a stream of data records (no sentinel): the sealed
batches concatenated with the still-pending members are exactly the input
records, in order — nothing lost, nothing duplicated. -/
lemma batcherRun_join {α : Type} (max_seqs batch_size : Nat) (len : α → Nat)
    (stop : α → Bool) (items : List α) (hitems : ∀ x ∈ items, stop x = false) :
    (batcherRun max_seqs batch_size len stop items).flushed.flatten
        ++ (batcherRun max_seqs batch_size len stop items).pending = items := by
  simpa using batcherRun_join_aux max_seqs batch_size len stop items ⟨[], [], []⟩ hitems

/-- C1, batch-packing invariant, counterexample: with `max_seqs = 2` and
`batch_size = 5`, feeding two records of time length 10 seals (via the
member-cap rule, which is checked before the size budget) a batch of
2 members whose `member_count * max_member_time_length = 2 * 10 = 20`
exceeds `batch_size = 5` — refuting the claim that every sealed batch with
at least two members satisfies the size budget. -/
theorem C1_counterexample :
    (batcherRun 2 5 (fun n : Nat => n) (fun _ => false) [10, 10]).flushed = [[10, 10]] ∧
    2 ≤ ([10, 10] : List Nat).length ∧
    ¬ ([10, 10] : List Nat).length * listMax [10, 10] ≤ 5 := by decide

/-- C1 (amended): over any input stream, every batch sealed by
`TFBatchingQueue._make_enqueue_op` has `member_count ≤ max_seqs`
(provided `max_seqs ≥ 1`), and every sealed batch with at least two members
that was NOT sealed by the member-cap rule — i.e. whose member count is
strictly below `max_seqs` — satisfied
`member_count * max_member_time_length ≤ batch_size` at the moment it was
sealed. Batches sealed by the member-cap rule (exactly `max_seqs` members)
may exceed the size budget, because the cap check takes priority. -/
theorem C1_batch_packing {α : Type} (max_seqs batch_size : Nat) (len : α → Nat)
    (stop : α → Bool) (items : List α) (hms : 1 ≤ max_seqs) :
    ∀ b ∈ (batcherRun max_seqs batch_size len stop items).flushed,
      b.length ≤ max_seqs ∧
      (2 ≤ b.length → b.length < max_seqs →
        b.length * listMax (b.map len) ≤ batch_size) :=
  (batcherRun_inv max_seqs batch_size len stop items hms).2

/-- Witness for C1 on the spec §8 scenario parameters
(`max_seqs = 3`, `batch_size = 12`, chunk lengths 4). -/
theorem C1_witness :
    1 ≤ 3 ∧
    ∀ b ∈ (batcherRun 3 12 (fun n : Nat => n) (fun _ => false) [4, 4, 4, 4]).flushed,
      b.length ≤ 3 ∧
      (2 ≤ b.length → b.length < 3 →
        b.length * listMax (b.map (fun n : Nat => n)) ≤ 12) :=
  ⟨by decide, C1_batch_packing 3 12 (fun n : Nat => n) (fun _ => false) [4, 4, 4, 4] (by decide)⟩

/-- C2, counterexample: with `max_seqs = 2` and two members already pending
(`pending_count + 1 = 3 > max_seqs`), admitting a new member does NOT flush
a batch of the already-pending members only: the code flushes a batch that
INCLUDES the new member and leaves the new pending batch empty, rather than
flushing the two pending members and starting a new pending batch with only
the new member. -/
theorem C2_counterexample :
    2 + 1 > 2 ∧
    make_enqueue_opI 2 1000 (fun n : Nat => n) (fun _ => false) [5, 6] 7
      = (some [5, 6, 7], []) ∧
    make_enqueue_opI 2 1000 (fun n : Nat => n) (fun _ => false) [5, 6] 7
      ≠ (some [5, 6], [7]) := by decide

/-- C2 (amended): the member-cap flush of
`TFBatchingQueue._make_enqueue_op` triggers already when
`pending_count + 1 ≥ max_seqs` (not only when strictly greater), and it
seals the batch built from the pending members TOGETHER WITH the new
member, then resets the accumulation state so that the new pending batch is
empty (it does not retain the new member). -/
theorem C2_member_cap_flush {α : Type} (max_seqs batch_size : Nat) (len : α → Nat)
    (stop : α → Bool) (pending : List α) (v : α)
    (hstop : stop v = false) (hcap : max_seqs ≤ pending.length + 1) :
    make_enqueue_opI max_seqs batch_size len stop pending v
      = (some (pending ++ [v]), []) :=
  make_enqueue_opI_cap max_seqs batch_size len stop pending v hstop (by simpa using hcap)

/-- Witness for C2 at a concrete member-cap boundary. -/
theorem C2_witness :
    ((fun _ : Nat => false) 7 = false) ∧ 2 ≤ ([5, 6] : List Nat).length + 1 ∧
    make_enqueue_opI 2 1000 (fun n : Nat => n) (fun _ => false) [5, 6] 7
      = (some ([5, 6] ++ [7]), []) :=
  ⟨rfl, by decide,
    C2_member_cap_flush 2 1000 (fun n : Nat => n) (fun _ => false) [5, 6] 7 rfl (by decide)⟩

/-- C7: when the batching queue dequeues an epoch-end sentinel after a
stream `xs` of data records, it seals exactly one additional batch, namely
the pending members (the sentinel itself is not counted, because
`tf.where(stop, 0, 1)` adds 0 on the sentinel); the accumulation state is
reset (pending empty, hence `batch_num = 0` and `max_seq_len = 0` under the
projection `projState`); the sealed batches together contain exactly the
data records `xs`, each once, in order (no member lost or duplicated); and
the sentinel itself is propagated downstream into `_tf_out_queue`. -/
theorem C7_epoch_end_flush {α : Type} (max_seqs batch_size : Nat) (len : α → Nat)
    (stop : α → Bool) (xs : List α) (e : α)
    (hxs : ∀ x ∈ xs, stop x = false) (he : stop e = true) :
    (batcherRun max_seqs batch_size len stop (xs ++ [e])).flushed
        = (batcherRun max_seqs batch_size len stop xs).flushed
            ++ [(batcherRun max_seqs batch_size len stop xs).pending] ∧
    (batcherRun max_seqs batch_size len stop (xs ++ [e])).pending = [] ∧
    (batcherRun max_seqs batch_size len stop (xs ++ [e])).flushed.flatten = xs ∧
    (batcherRun max_seqs batch_size len stop (xs ++ [e])).out_queue = xs ++ [e] := by
  have hrun : batcherRun max_seqs batch_size len stop (xs ++ [e])
      = batcherStep max_seqs batch_size len stop (batcherRun max_seqs batch_size len stop xs) e := by
    rw [batcherRun_append]; rfl
  have hstep : batcherStep max_seqs batch_size len stop
      (batcherRun max_seqs batch_size len stop xs) e
      = ⟨(batcherRun max_seqs batch_size len stop xs).flushed
          ++ [(batcherRun max_seqs batch_size len stop xs).pending], [],
         (batcherRun max_seqs batch_size len stop xs).out_queue ++ [e]⟩ := by
    unfold batcherStep
    rw [make_enqueue_opI_stop max_seqs batch_size len stop _ e he]
    rfl
  refine ⟨by rw [hrun, hstep], by rw [hrun, hstep], ?_, ?_⟩
  · rw [hrun, hstep]
    simp only [List.flatten_append, List.flatten_cons, List.flatten_nil, List.append_nil]
    exact batcherRun_join max_seqs batch_size len stop xs hxs
  · rw [hrun, hstep]
    simp [batcherRun_out_queue]

/-- Witness for C7: two data records, then a sentinel
(records are pairs of (epoch_end flag, time length)). -/
theorem C7_witness :
    (∀ x ∈ [((false : Bool), (3 : Nat)), (false, 4)], Prod.fst x = false) ∧
    Prod.fst ((true : Bool), (0 : Nat)) = true ∧
    ((batcherRun 3 100 Prod.snd Prod.fst
        ([((false : Bool), (3 : Nat)), (false, 4)] ++ [(true, 0)])).flushed
        = (batcherRun 3 100 Prod.snd Prod.fst [((false : Bool), (3 : Nat)), (false, 4)]).flushed
            ++ [(batcherRun 3 100 Prod.snd Prod.fst
                  [((false : Bool), (3 : Nat)), (false, 4)]).pending] ∧
      (batcherRun 3 100 Prod.snd Prod.fst
        ([((false : Bool), (3 : Nat)), (false, 4)] ++ [(true, 0)])).pending = [] ∧
      (batcherRun 3 100 Prod.snd Prod.fst
        ([((false : Bool), (3 : Nat)), (false, 4)] ++ [(true, 0)])).flushed.flatten
          = [((false : Bool), (3 : Nat)), (false, 4)] ∧
      (batcherRun 3 100 Prod.snd Prod.fst
        ([((false : Bool), (3 : Nat)), (false, 4)] ++ [(true, 0)])).out_queue
          = [((false : Bool), (3 : Nat)), (false, 4)] ++ [(true, 0)]) :=
  ⟨by decide, rfl,
    C7_epoch_end_flush 3 100 Prod.snd Prod.fst
      [((false : Bool), (3 : Nat)), (false, 4)] ((true : Bool), (0 : Nat))
      (by decide) rfl⟩

/-! Chunker: `TFChunkingQueueRunner` (TFDataPipeline.py lines 374-463). -/

/-- The chunk-start iteration of `TFChunkingQueueRunner`: the inner
`tf.while_loop` (lines 448-452) iterates `seq_start` from 0 while
`seq_start < L` (the default key's time length), stepping by `chunk_step`,
and emits one chunk per iteration. Embedded with explicit fuel so the
function is structurally recursive; `L + 1` iterations always suffice when
`chunk_step ≥ 1` (`chunk_starts_fuel_length` below). -/
def chunk_starts_fuel (L chunk_step : Nat) : Nat → Nat → List Nat
  | 0, _ => []
  | fuel + 1, seq_start =>
    if seq_start < L then
      seq_start :: chunk_starts_fuel L chunk_step fuel (seq_start + chunk_step)
    else []

/-- The sequence of `seq_start` values (one emitted chunk each) for a
sequence of time length `L` with stride `chunk_step`. -/
def chunk_starts (L chunk_step : Nat) : List Nat :=
  chunk_starts_fuel L chunk_step (L + 1) 0

/-- Emission of `seq_loop_body` for one dequeued sequence record
(lines 405-457): with chunking disabled (`chunk_size is None`) the whole
record is forwarded to the target queue unchanged (lines 419-421);
otherwise `chunk_loop_body` enqueues one chunk per value of `seq_start` in
`chunk_starts L chunk_step`. -/
def seq_loop_emit {α : Type} (chunk_size : Option Nat) (chunk_step : Nat)
    (emit_chunk : Nat → α) (L : Nat) (seq_item : α) : List α :=
  match chunk_size with
  | none => [seq_item]
  | some _ => (chunk_starts L chunk_step).map emit_chunk

lemma chunk_starts_fuel_ge (L s : Nat) :
    ∀ (fuel b : Nat), ∀ x ∈ chunk_starts_fuel L s fuel b, b ≤ x := by
  intro fuel
  induction fuel with
  | zero => intro b x hx; simp [chunk_starts_fuel] at hx
  | succ fuel ih =>
    intro b x hx
    simp only [chunk_starts_fuel] at hx
    split_ifs at hx with hb
    · rcases List.mem_cons.mp hx with rfl | hx
      · exact le_refl x
      · exact le_trans (Nat.le_add_right b s) (ih (b + s) x hx)
    · simp at hx

lemma chunk_starts_fuel_mem (L s : Nat) (hs : 0 < s) :
    ∀ (fuel b : Nat), L - b < fuel →
      ∀ x, x ∈ chunk_starts_fuel L s fuel b ↔ ∃ k, x = b + k * s ∧ x < L := by
  intro fuel
  induction fuel with
  | zero => intro b hfuel; omega
  | succ fuel ih =>
    intro b hfuel x
    simp only [chunk_starts_fuel]
    split_ifs with hb
    · rw [List.mem_cons, ih (b + s) (by omega) x]
      constructor
      · rintro (rfl | ⟨k, rfl, hk⟩)
        · exact ⟨0, by omega, hb⟩
        · exact ⟨k + 1, by ring_nf, hk⟩
      · rintro ⟨k, rfl, hk⟩
        cases k with
        | zero => exact Or.inl (by omega)
        | succ k => exact Or.inr ⟨k, by ring_nf, hk⟩
    · simp only [List.not_mem_nil, false_iff]
      rintro ⟨k, rfl, hk⟩
      omega

lemma chunk_starts_fuel_pairwise (L s : Nat) (hs : 0 < s) :
    ∀ (fuel b : Nat), List.Pairwise (· < ·) (chunk_starts_fuel L s fuel b) := by
  intro fuel
  induction fuel with
  | zero => intro b; simp [chunk_starts_fuel]
  | succ fuel ih =>
    intro b
    simp only [chunk_starts_fuel]
    split_ifs with hb
    · refine List.Pairwise.cons ?_ (ih (b + s))
      intro x hx
      have := chunk_starts_fuel_ge L s fuel (b + s) x hx
      omega
    · exact List.Pairwise.nil

lemma chunk_starts_fuel_length (L s : Nat) (hs : 0 < s) :
    ∀ (fuel b : Nat), L - b < fuel →
      (chunk_starts_fuel L s fuel b).length = (L - b + s - 1) / s := by
  intro fuel
  induction fuel with
  | zero => intro b hfuel; omega
  | succ fuel ih =>
    intro b hfuel
    simp only [chunk_starts_fuel]
    split_ifs with hb
    · rw [List.length_cons, ih (b + s) (by omega)]
      have h1 : L - b + s - 1 = (L - b - 1) + s := by omega
      rw [h1, Nat.add_div_right _ hs]
      by_cases hds : s < L - b
      · have h2 : L - (b + s) + s - 1 = L - b - 1 := by omega
        rw [h2]
      · have h2 : L - (b + s) + s - 1 < s := by omega
        have h3 : L - b - 1 < s := by omega
        rw [Nat.div_eq_of_lt h2, Nat.div_eq_of_lt h3]
    · have h0 : L - b = 0 := by omega
      rw [h0]
      simp [Nat.div_eq_of_lt (show s - 1 < s by omega)]

/-- C3: with chunking enabled (`chunk_size = c`, stride `chunk_step = s ≥ 1`),
for a sequence of time length `L` the emitted chunk starts are exactly the
multiples of `s` below `L`, in strictly increasing order, and the number of
chunks (one per start, and per emission of `seq_loop_emit`) equals
`ceil(L / s) = (L + s - 1) / s` (stated under the claim's `s ≤ c`
hypothesis, though the count does not depend on `c`). -/
theorem C3_chunk_coverage {α : Type} (L c s : Nat) (emit_chunk : Nat → α)
    (seq_item : α) (hs : 0 < s) (_hsc : s ≤ c) :
    (∀ x, x ∈ chunk_starts L s ↔ ∃ k, x = k * s ∧ x < L) ∧
    List.Pairwise (· < ·) (chunk_starts L s) ∧
    (chunk_starts L s).length = (L + s - 1) / s ∧
    (seq_loop_emit (some c) s emit_chunk L seq_item).length = (L + s - 1) / s := by
  have hlen : (chunk_starts L s).length = (L + s - 1) / s := by
    rw [chunk_starts, chunk_starts_fuel_length L s hs (L + 1) 0 (by omega), Nat.sub_zero]
  refine ⟨?_, ?_, hlen, ?_⟩
  · intro x
    rw [chunk_starts, chunk_starts_fuel_mem L s hs (L + 1) 0 (by omega) x]
    constructor
    · rintro ⟨k, rfl, hk⟩; exact ⟨k, by omega, hk⟩
    · rintro ⟨k, rfl, hk⟩; exact ⟨k, by omega, hk⟩
  · exact chunk_starts_fuel_pairwise L s hs (L + 1) 0
  · rw [seq_loop_emit, List.length_map, hlen]

/-- Witness for C3: `L = 10`, `c = 4`, `s = 4`
(spec §8 scenario: starts `[0, 4, 8]`, `ceil(10/4) = 3`). -/
theorem C3_witness :
    0 < 4 ∧ 4 ≤ 4 ∧
    ((∀ x, x ∈ chunk_starts 10 4 ↔ ∃ k, x = k * 4 ∧ x < 10) ∧
      List.Pairwise (· < ·) (chunk_starts 10 4) ∧
      (chunk_starts 10 4).length = (10 + 4 - 1) / 4 ∧
      (seq_loop_emit (some 4) 4 (fun st : Nat => st) 10 0).length = (10 + 4 - 1) / 4) :=
  ⟨by decide, by decide,
    C3_chunk_coverage 10 4 4 (fun st : Nat => st) 0 (by decide) (by decide)⟩

/-- Modelled from the spec: `slice_pad_zeros` is imported from `TFUtil`
(line 438), whose implementation is not part of this repository snapshot
(no TFUtil under src/). Per the spec (§4.3 step 2 and §8 padding
correctness): extract the window `[begin, end)` along the time axis,
zero-filling every position falling outside `[0, L)` and taking the true
source value at in-range positions. -/
def slice_pad_zeros (xs : List Int) (b e : Int) : List Int :=
  (List.range (e - b).toNat).map fun (i : Nat) =>
    if 0 ≤ b + (i : Int) ∧ b + (i : Int) < (xs.length : Int)
    then xs.getD (b + (i : Int)).toNat 0 else 0

/-- Per-key window extraction of `chunk_loop_body` (lines 436-443) for a
key with time axis 0: `seq_end = min(seq_start + chunk_size, L)` where `L`
is this key's own time length (line 437), the extracted window is
`slice_pad_zeros(seq, seq_start - w, seq_end + w)` (lines 439-442), and the
recomputed `size0` entry is `seq_end - seq_start + 2 * w` (line 443). -/
def chunk_loop_body_key (seq : List Int) (seq_start chunk_size w : Nat) :
    List Int × Int :=
  let seq_end : Nat := min (seq_start + chunk_size) seq.length
  (slice_pad_zeros seq ((seq_start : Int) - (w : Int)) ((seq_end : Int) + (w : Int)),
   ((seq_end : Int) - (seq_start : Int)) + 2 * (w : Int))

/-- C4: for every chunk and key with a time axis, with
`seq_end = min(seq_start + chunk_size, L)` and per-key context `w`, the
extracted window covers exactly the index range
`[seq_start - w, seq_end + w)`: its length is `(seq_end - seq_start) + 2*w`,
positions outside `[0, L)` are exactly zero, in-range positions carry the
true source value, and the key's recomputed size entry equals
`(seq_end - seq_start) + 2*w`. -/
theorem C4_window_padding (seq : List Int) (seq_start chunk_size w : Nat)
    (h : seq_start ≤ seq.length) :
    (chunk_loop_body_key seq seq_start chunk_size w).1.length
        = (min (seq_start + chunk_size) seq.length - seq_start) + 2 * w ∧
    (∀ i, i < (chunk_loop_body_key seq seq_start chunk_size w).1.length →
      (chunk_loop_body_key seq seq_start chunk_size w).1.getD i 0
        = if 0 ≤ (seq_start : Int) - (w : Int) + (i : Int) ∧
              (seq_start : Int) - (w : Int) + (i : Int) < (seq.length : Int)
          then seq.getD ((seq_start : Int) - (w : Int) + (i : Int)).toNat 0
          else 0) ∧
    (chunk_loop_body_key seq seq_start chunk_size w).2
        = ((min (seq_start + chunk_size) seq.length : Nat) : Int)
            - (seq_start : Int) + 2 * (w : Int) := by
  refine ⟨?_, ?_, rfl⟩
  · simp only [chunk_loop_body_key, slice_pad_zeros, List.length_map, List.length_range]
    omega
  · intro i hi
    simp only [chunk_loop_body_key, slice_pad_zeros, List.length_map,
      List.length_range] at hi ⊢
    rw [List.getD_eq_getElem _ _ (by simpa using hi)]
    simp only [List.getElem_map, List.getElem_range]

/-- Witness for C4: sequence `[5, 7, 9]`, `seq_start = 2`, `chunk_size = 4`,
context `w = 1` (the window sticks out on both sides). -/
theorem C4_witness :
    2 ≤ ([5, 7, 9] : List Int).length ∧
    ((chunk_loop_body_key [5, 7, 9] 2 4 1).1.length
        = (min (2 + 4) ([5, 7, 9] : List Int).length - 2) + 2 * 1 ∧
      (∀ i, i < (chunk_loop_body_key [5, 7, 9] 2 4 1).1.length →
        (chunk_loop_body_key [5, 7, 9] 2 4 1).1.getD i 0
          = if 0 ≤ ((2 : Nat) : Int) - ((1 : Nat) : Int) + (i : Int) ∧
                ((2 : Nat) : Int) - ((1 : Nat) : Int) + (i : Int)
                  < (([5, 7, 9] : List Int).length : Int)
            then ([5, 7, 9] : List Int).getD
                (((2 : Nat) : Int) - ((1 : Nat) : Int) + (i : Int)).toNat 0
            else 0) ∧
      (chunk_loop_body_key [5, 7, 9] 2 4 1).2
        = ((min (2 + 4) ([5, 7, 9] : List Int).length : Nat) : Int)
            - ((2 : Nat) : Int) + 2 * ((1 : Nat) : Int)) :=
  ⟨by decide, C4_window_padding [5, 7, 9] 2 4 1 (by decide)⟩

/-- C5: with `chunk_size = None` every dequeued sequence record is forwarded
by the chunker to the target queue unchanged (the emission for each record
is exactly the record itself), and the batching stage enqueues every record
it dequeues unchanged into its padding output queue — so with chunking
disabled every sequence record reaches the batch stage unmodified
(batch-axis stacking and padding happen only inside
`tf.PaddingFIFOQueue.dequeue_up_to`, after this point). -/
theorem C5_passthrough {α : Type} (max_seqs batch_size chunk_step : Nat)
    (len : α → Nat) (stop : α → Bool) (emit_chunk : Nat → α) (L : α → Nat)
    (recs : List α) :
    (recs.map fun r => seq_loop_emit none chunk_step emit_chunk (L r) r).flatten = recs ∧
    (batcherRun max_seqs batch_size len stop recs).out_queue = recs := by
  constructor
  · induction recs with
    | nil => rfl
    | cons r recs ih =>
      simp only [List.map_cons, List.flatten_cons] at *
      rw [ih]
      rfl
  · exact batcherRun_out_queue max_seqs batch_size len stop recs

/-! DatasetReader (TFDataPipeline.py lines 137-260). -/

/-- `DatasetReader.SpecialKeys` (line 142). -/
def SpecialKeys : List String := ["seq_tag", "seq_idx", "epoch_end"]

/-- The loop of `DatasetReader._get_keys` (lines 166-173) over
`extern_data.data.items()` (each entry: a key and the list of its
size-bearing axes). Special keys are skipped; for any other key the source
executes `keys.add(keys)` (line 171) — it adds the accumulating set to
itself instead of adding `key`, and a Python set is unhashable, so this
raises `TypeError` before the size-key adds of lines 172-173 can run. We
model that raise as an `Except.error`. -/
def get_keys_loop : List (String × List Nat) → Except String (List String)
  | [] => .ok []
  | (key, _axes) :: rest =>
    if key ∈ SpecialKeys then get_keys_loop rest
    else .error "TypeError: unhashable type: set"

/-- `DatasetReader._get_keys` (lines 166-180): iterate over the data keys,
then add the flag-selected special keys. -/
def get_keys (data : List (String × List Nat))
    (with_seq_tag with_seq_idx with_epoch_end : Bool) :
    Except String (List String) :=
  match get_keys_loop data with
  | .error e => .error e
  | .ok keys =>
    .ok (keys ++ (if with_seq_tag then ["seq_tag"] else [])
      ++ (if with_seq_idx then ["seq_idx"] else [])
      ++ (if with_epoch_end then ["epoch_end"] else []))

/-- C6 (code bug): `DatasetReader.__init__` computes `self.dict_keys` via
`_get_keys`, but line 171 reads `keys.add(keys)` instead of
`keys.add(key)`: as soon as `extern_data` holds any non-special data key
(the normal case, e.g. the key `data`), constructing the reader raises
`TypeError: unhashable type: set`, so no epoch-end sentinel can ever be
delivered — and even ignoring the raise, the plain data keys would be
missing from `dict_keys`, so `_make_end_of_epoch_dict` (lines 220-232)
could not zero-fill them. The claim (one zero-filled sentinel for every
key) matches the obvious intent. -/
theorem C6_get_keys_crash :
    get_keys [("data", [0])] true true true
      = .error "TypeError: unhashable type: set" := rfl

/-! Error propagation: `DatasetReader.loop` (line 235) versus
`FeedDictDataProvider.thread_main` (lines 755-779). -/

/-- The shared `tf.train.Coordinator` collaborator as used by this module:
the cooperative stop flag plus the first recorded exception.
`request_stop(ex)` raises the flag and records the exception. -/
structure Coordinator where
  stop_requested : Bool
  exc : Option String

def Coordinator.request_stop (co : Coordinator) (ex : Option String) : Coordinator :=
  ⟨true, match co.exc with | some e => some e | none => ex⟩

/-- `with coord.stop_on_exception():` wrapping a loop body, as
`DatasetReader.loop` does (line 235): a normal return leaves the
coordinator unchanged; an exception calls `request_stop` with it, so the
stop flag is raised and the error is recorded (observable to the
orchestrator afterwards, e.g. via `coord.join`). -/
def stop_on_exception (co : Coordinator) (body : Except String Unit) : Coordinator :=
  match body with
  | .ok _ => co
  | .error e => co.request_stop (some e)

/-- Observable outcome of one run of `FeedDictDataProvider.thread_main`. -/
structure ThreadMainResult (α : Type) where
  queue : List α
  coord : Coordinator
  thread_finished : Bool
  reached_end : Bool
  printed : List String

/-- `FeedDictDataProvider.thread_main` (lines 755-779) over the planned
sequence of batch computations (each `get_next_batch` call either yields a
batch or raises): the while loop runs while batches remain and
`coord.should_stop()` is false, enqueueing each produced batch; on normal
loop exit `reached_end := not batches.has_more()`; an exception is caught
by the `except` clause and only PRINTED (lines 772-774) — the coordinator
is left untouched — and the `finally` clause sets `thread_finished`
(lines 776-779). -/
def thread_main_go {α : Type} (co : Coordinator) (queue : List α)
    (printed : List String) : List (Except String α) → ThreadMainResult α
  | [] => ⟨queue, co, true, true, printed⟩
  | b :: rest =>
    if co.stop_requested then ⟨queue, co, true, false, printed⟩
    else
      match b with
      | .ok batch => thread_main_go co (queue ++ [batch]) printed rest
      | .error e => ⟨queue, co, true, false, printed ++ [e]⟩

def thread_main {α : Type} (co : Coordinator)
    (batches : List (Except String α)) : ThreadMainResult α :=
  thread_main_go co [] [] batches

/-- C8, counterexample: a fatal error in the
`FeedDictDataProvider.thread_main` background loop does NOT transition the
shared stop signal to stop-requested and is not recorded anywhere the
orchestrator checks — it is caught, printed to the log, and the thread
merely marks itself finished. -/
theorem C8_counterexample :
    (thread_main (α := Nat) ⟨false, none⟩ [Except.error "boom"]).coord.stop_requested
        = false ∧
    (thread_main (α := Nat) ⟨false, none⟩ [Except.error "boom"]).coord.exc = none ∧
    (thread_main (α := Nat) ⟨false, none⟩ [Except.error "boom"]).printed = ["boom"] ∧
    (thread_main (α := Nat) ⟨false, none⟩ [Except.error "boom"]).thread_finished
        = true :=
  ⟨rfl, rfl, rfl, rfl⟩

lemma thread_main_go_error {α : Type} (co : Coordinator)
    (hco : co.stop_requested = false) (e : String) :
    ∀ (pre : List α) (queue : List α) (printed : List String)
      (post : List (Except String α)),
      thread_main_go co queue printed (pre.map Except.ok ++ Except.error e :: post)
        = ⟨queue ++ pre, co, true, false, printed ++ [e]⟩ := by
  intro pre
  induction pre with
  | nil =>
    intro queue printed post
    simp [thread_main_go, hco]
  | cons b pre ih =>
    intro queue printed post
    simp only [List.map_cons, List.cons_append, thread_main_go, hco,
      Bool.false_eq_true, if_false, List.append_eq]
    rw [ih (queue ++ [b]) printed post]
    simp

/-- C8 (amended): a fatal error inside `DatasetReader.loop` is wrapped by
`coord.stop_on_exception()`, so the shared stop signal transitions to
stop-requested and the error is recorded on the coordinator (observable by
the orchestrator afterwards). A fatal error inside
`FeedDictDataProvider.thread_main`, however, is caught by its local
`except` clause: it is only printed, `thread_finished` is set, and the
coordinator — stop signal and recorded error alike — is left completely
unchanged; this loop silently swallows the error as far as the stop signal
is concerned. -/
theorem C8_error_propagation {α : Type} (co : Coordinator) (e : String)
    (pre : List α) (post : List (Except String α))
    (hco : co.stop_requested = false) (hexc : co.exc = none) :
    (stop_on_exception co (Except.error e)).stop_requested = true ∧
    (stop_on_exception co (Except.error e)).exc = some e ∧
    (thread_main co (pre.map Except.ok ++ Except.error e :: post)).coord = co ∧
    (thread_main co (pre.map Except.ok ++ Except.error e :: post)).thread_finished
        = true ∧
    (thread_main co (pre.map Except.ok ++ Except.error e :: post)).printed = [e] := by
  refine ⟨rfl, ?_, ?_, ?_, ?_⟩
  · simp [stop_on_exception, Coordinator.request_stop, hexc]
  · rw [thread_main, thread_main_go_error co hco e pre [] [] post]
  · rw [thread_main, thread_main_go_error co hco e pre [] [] post]
  · rw [thread_main, thread_main_go_error co hco e pre [] [] post]
    simp

/-- Witness for C8: one successful batch, then a failing one. -/
theorem C8_witness :
    (⟨false, none⟩ : Coordinator).stop_requested = false ∧
    (⟨false, none⟩ : Coordinator).exc = none ∧
    ((stop_on_exception ⟨false, none⟩ (Except.error "boom")).stop_requested = true ∧
      (stop_on_exception ⟨false, none⟩ (Except.error "boom")).exc = some "boom" ∧
      (thread_main ⟨false, none⟩
          (([1] : List Nat).map Except.ok ++ Except.error "boom" :: [])).coord
        = ⟨false, none⟩ ∧
      (thread_main ⟨false, none⟩
          (([1] : List Nat).map Except.ok ++ Except.error "boom" :: [])).thread_finished
        = true ∧
      (thread_main ⟨false, none⟩
          (([1] : List Nat).map Except.ok ++ Except.error "boom" :: [])).printed
        = ["boom"]) :=
  ⟨rfl, rfl, C8_error_propagation ⟨false, none⟩ "boom" [1] [] rfl rfl⟩

/-! QueueDataProvider.have_more_data (lines 929-944) and the batching
queue's `last_seq_idx` counter (line 518). -/

/-- The update applied to `last_seq_idx_var` each time a batch is dequeued
(line 518): assign `maximum(last_seq_idx, reduce_max(batch seq_idx))`. -/
def last_seq_idx_assign (last_seq_idx : Nat) (batch_seq_idx : List Nat) : Nat :=
  max last_seq_idx (listMax batch_seq_idx)

/-- `QueueDataProvider.have_more_data` (lines 929-944): asserts that a
current dataset reader exists (modelled as the outer `Option`); returns
`True` while the reader's `final_num_seqs` is still unknown (`None`); once
it is known, refreshes `_last_seq_idx` from the batcher's variable and
returns `not (last_seq_idx + 1 >= final_num_seqs)`. -/
def have_more_data (cur_dataset_reader : Option (Option Nat))
    (last_seq_idx : Nat) : Except String Bool :=
  match cur_dataset_reader with
  | none => .error "assert self.cur_dataset_reader"
  | some none => .ok true
  | some (some final_num_seqs) =>
    .ok (! decide (final_num_seqs ≤ last_seq_idx + 1))

lemma foldl_last_seq_idx_assign (batches : List (List Nat)) :
    ∀ v : Nat, batches.foldl last_seq_idx_assign v = max v (listMax batches.flatten) := by
  induction batches with
  | nil => intro v; simp [listMax]
  | cons b batches ih =>
    intro v
    rw [List.foldl_cons, ih (last_seq_idx_assign v b), List.flatten_cons, listMax_append]
    simp only [last_seq_idx_assign]
    omega

/-- C9: `have_more_data` returns `True` as long as the reader's final
sequence count is unknown; once the count `N` is known it returns `True`
iff `last_seq_idx + 1 < N`; and the batcher's `last_seq_idx` variable is,
after any sequence of batch dequeues (starting from its zero
initialization), exactly the maximum `seq_idx` observed over all dequeued
batch members. -/
theorem C9_have_more_data (last_seq_idx final_num_seqs : Nat)
    (batches : List (List Nat)) :
    have_more_data (some none) last_seq_idx = .ok true ∧
    (have_more_data (some (some final_num_seqs)) last_seq_idx = .ok true
      ↔ last_seq_idx + 1 < final_num_seqs) ∧
    batches.foldl last_seq_idx_assign 0 = listMax batches.flatten := by
  refine ⟨rfl, ?_, ?_⟩
  · simp only [have_more_data, Except.ok.injEq, Bool.not_eq_true',
      decide_eq_false_iff_not]
    omega
  · rw [foldl_last_seq_idx_assign batches 0]
    omega

/-! FeedDictDataProvider._get_next_batch (lines 713-746). -/

/-- One member of a batch plan (`seq` in the loop at line 732): its dataset
sequence index, its batch slice `q`, and the per-key frame offset `o`,
frame length `l`, and start/end frames. -/
structure BatchSeqCopyPart where
  seq_idx : Nat
  batch_slice : Nat
  batch_frame_offset : String → Nat
  frame_length : String → Nat
  seq_start_frame : String → Nat
  seq_end_frame : String → Nat

/-- The state built by `_get_next_batch`: the per-key batch array
`data[k][q, t]` (zero-initialized, lines 725-726), the per-key per-slice
`seq_lens[k][q]` (zero-initialized, lines 727-728), and the trace of
`get_data_slice` calls issued to the dataset (line 739). -/
structure NextBatchState where
  data : String → Nat → Nat → Int
  seq_lens : String → Nat → Nat
  calls : List (Nat × String × Nat × Nat)

def initNextBatchState : NextBatchState :=
  ⟨fun _ _ _ => 0, fun _ _ => 0, []⟩

/-- Body of the inner `for k in self.data_keys` loop of `_get_next_batch`
(lines 737-745) for one member `seq` and one key `k`: if the computed frame
length `l[k]` is zero the iteration is skipped (`continue`, line 738);
otherwise `get_data_slice` is called, the returned slice length is checked
against `l[k]` (raising on mismatch, lines 740-743), the slice is written
into `data[k][q, o[k] : o[k]+ls]` and
`seq_lens[k][q] = max(seq_lens[k][q], o[k]+ls)` (lines 744-745). -/
def get_next_batch_key_step
    (get_data_slice : Nat → String → Nat → Nat → List Int)
    (seq : BatchSeqCopyPart) (k : String) (st : NextBatchState) :
    Except String NextBatchState :=
  let o := seq.batch_frame_offset k
  let q := seq.batch_slice
  let l := seq.frame_length k
  if l = 0 then .ok st
  else
    let v := get_data_slice seq.seq_idx k (seq.seq_start_frame k) (seq.seq_end_frame k)
    let ls := v.length
    if ls ≠ l then .error "got unexpected slice length"
    else .ok
      { data := fun k2 q2 t =>
          if k2 = k ∧ q2 = q ∧ o ≤ t ∧ t < o + ls then v.getD (t - o) 0
          else st.data k2 q2 t,
        seq_lens := fun k2 q2 =>
          if k2 = k ∧ q2 = q then max (st.seq_lens k2 q2) (o + ls)
          else st.seq_lens k2 q2,
        calls := st.calls
          ++ [(seq.seq_idx, k, seq.seq_start_frame k, seq.seq_end_frame k)] }

/-- The per-member loop body (`for seq in batch.seqs`, line 732). -/
def get_next_batch_seq (get_data_slice : Nat → String → Nat → Nat → List Int)
    (data_keys : List String) (seq : BatchSeqCopyPart) (st : NextBatchState) :
    Except String NextBatchState :=
  data_keys.foldlM (fun st2 k => get_next_batch_key_step get_data_slice seq k st2) st

/-- `FeedDictDataProvider._get_next_batch` (lines 713-746), restricted to
the array-filling loop: fold the member/key loops over the zero-initialized
state. -/
def get_next_batch (get_data_slice : Nat → String → Nat → Nat → List Int)
    (data_keys : List String) (seqs : List BatchSeqCopyPart) :
    Except String NextBatchState :=
  seqs.foldlM (fun st seq => get_next_batch_seq get_data_slice data_keys seq st)
    initNextBatchState

/-- The `(key, slice)` cell is still at its zero initialization. -/
def untouchedCell (k : String) (q : Nat) (st : NextBatchState) : Prop :=
  (∀ t, st.data k q t = 0) ∧ st.seq_lens k q = 0

lemma get_next_batch_key_step_untouched
    (gds : Nat → String → Nat → Nat → List Int) (seq : BatchSeqCopyPart)
    (k2 k : String) (q : Nat) (st st2 : NextBatchState)
    (hseq : seq.batch_slice = q → seq.frame_length k = 0)
    (hstep : get_next_batch_key_step gds seq k2 st = .ok st2)
    (hu : untouchedCell k q st) : untouchedCell k q st2 := by
  unfold get_next_batch_key_step at hstep
  by_cases hl : seq.frame_length k2 = 0
  · rw [if_pos hl] at hstep
    cases hstep
    exact hu
  · rw [if_neg hl] at hstep
    by_cases hls : (gds seq.seq_idx k2 (seq.seq_start_frame k2) (seq.seq_end_frame k2)).length
        ≠ seq.frame_length k2
    · rw [if_pos hls] at hstep
      cases hstep
    · rw [if_neg hls] at hstep
      cases hstep
      have hguard : ¬ (k = k2 ∧ q = seq.batch_slice) := by
        rintro ⟨rfl, rfl⟩
        exact hl (hseq rfl)
      refine ⟨fun t => ?_, ?_⟩
      · simp only
        rw [if_neg (by rintro ⟨h1, h2, _⟩; exact hguard ⟨h1, h2⟩)]
        exact hu.1 t
      · simp only
        rw [if_neg hguard]
        exact hu.2

lemma get_next_batch_seq_untouched
    (gds : Nat → String → Nat → Nat → List Int) (seq : BatchSeqCopyPart)
    (k : String) (q : Nat)
    (hseq : seq.batch_slice = q → seq.frame_length k = 0) :
    ∀ (data_keys : List String) (st st2 : NextBatchState),
      get_next_batch_seq gds data_keys seq st = .ok st2 →
      untouchedCell k q st → untouchedCell k q st2 := by
  intro data_keys
  induction data_keys with
  | nil =>
    intro st st2 hstep hu
    cases hstep
    exact hu
  | cons k2 keys ih =>
    intro st st2 hstep hu
    rw [get_next_batch_seq, List.foldlM_cons] at hstep
    cases hmid : get_next_batch_key_step gds seq k2 st with
    | error e => rw [hmid] at hstep; cases hstep
    | ok stmid =>
      rw [hmid] at hstep
      exact ih stmid st2 hstep
        (get_next_batch_key_step_untouched gds seq k2 k q st stmid hseq hmid hu)

lemma get_next_batch_untouched
    (gds : Nat → String → Nat → Nat → List Int) (data_keys : List String)
    (k : String) (q : Nat) :
    ∀ (seqs : List BatchSeqCopyPart) (st st2 : NextBatchState),
      (∀ seq ∈ seqs, seq.batch_slice = q → seq.frame_length k = 0) →
      seqs.foldlM (fun st3 seq => get_next_batch_seq gds data_keys seq st3) st
        = .ok st2 →
      untouchedCell k q st → untouchedCell k q st2 := by
  intro seqs
  induction seqs with
  | nil =>
    intro st st2 _ hstep hu
    cases hstep
    exact hu
  | cons seq seqs ih =>
    intro st st2 hz hstep hu
    rw [List.foldlM_cons] at hstep
    cases hmid : get_next_batch_seq gds data_keys seq st with
    | error e => rw [hmid] at hstep; cases hstep
    | ok stmid =>
      rw [hmid] at hstep
      refine ih stmid st2 (fun s hs => hz s (List.mem_cons_of_mem seq hs)) hstep ?_
      exact get_next_batch_seq_untouched gds seq k q
        (hz seq (List.mem_cons_self seq seqs)) data_keys st stmid hmid hu

/-- Dataset used in the C10 scenario: sequence 1 has a `data` slice
`[1, 2, 3]`; everything else is empty. -/
def c10_gds : Nat → String → Nat → Nat → List Int :=
  fun i k _s _e => if i = 1 ∧ k = "data" then [1, 2, 3] else []

/-- Batch member with frame length 0 for every key, occupying slice 0. -/
def c10_seqA : BatchSeqCopyPart :=
  ⟨0, 0, fun _ => 0, fun _ => 0, fun _ => 0, fun _ => 0⟩

/-- Batch member with 3 `data` frames, sharing slice 0 with `c10_seqA`. -/
def c10_seqB : BatchSeqCopyPart :=
  ⟨1, 0, fun _ => 0, fun k => if k = "data" then 3 else 0, fun _ => 0,
   fun k => if k = "data" then 3 else 0⟩

/-- C10, counterexample: member `c10_seqA` has frame length 0 for key
`data`, yet its `seq_lens` entry (`seq_lens["data"][0]`, the entry of its
batch slice) does NOT remain at its zero initialization, because another
member (`c10_seqB`) occupying the same batch slice writes it — `seq_lens`
is indexed per slice, not per member. -/
theorem C10_counterexample :
    c10_seqA.frame_length "data" = 0 ∧ c10_seqA.batch_slice = 0 ∧
    (get_next_batch c10_gds ["data"] [c10_seqA, c10_seqB]).toOption.map
        (fun st => st.seq_lens "data" 0) = some 3 ∧
    some (3 : Nat) ≠ some 0 :=
  ⟨rfl, rfl, rfl, by decide⟩

/-- C10 (amended): whenever a member's computed frame length for a key is
zero, `_get_next_batch` skips that member/key iteration entirely: the
iteration is the identity on the state — in particular `get_data_slice` is
not invoked for it (no call is recorded) and it writes neither the batch
array nor `seq_lens`. Consequently, if EVERY member occupying a given batch
slice has frame length zero for a key, that key/slice cell of the batch
array and its `seq_lens` entry remain at their zero initialization; a
co-resident member of the same slice with a nonzero length does write the
shared `seq_lens` entry (see the counterexample). -/
theorem C10_zero_length_skip
    (gds : Nat → String → Nat → Nat → List Int) (data_keys : List String)
    (seqs : List BatchSeqCopyPart) (k : String) (q : Nat) (st : NextBatchState)
    (hok : get_next_batch gds data_keys seqs = .ok st)
    (hz : ∀ seq ∈ seqs, seq.batch_slice = q → seq.frame_length k = 0) :
    (∀ (seq : BatchSeqCopyPart) (st2 : NextBatchState), seq.frame_length k = 0 →
        get_next_batch_key_step gds seq k st2 = .ok st2) ∧
    (∀ t, st.data k q t = 0) ∧ st.seq_lens k q = 0 := by
  refine ⟨?_, ?_⟩
  · intro seq st2 hl
    rw [get_next_batch_key_step, if_pos hl]
  · exact get_next_batch_untouched gds data_keys k q seqs initNextBatchState st hz hok
      ⟨fun _ => rfl, rfl⟩

/-- Witness for C10: a batch whose only member has frame length 0. -/
theorem C10_witness :
    get_next_batch c10_gds ["data"] [c10_seqA] = .ok initNextBatchState ∧
    (∀ seq ∈ [c10_seqA], seq.batch_slice = 0 → seq.frame_length "data" = 0) ∧
    ((∀ (seq : BatchSeqCopyPart) (st2 : NextBatchState),
        seq.frame_length "data" = 0 →
        get_next_batch_key_step c10_gds seq "data" st2 = .ok st2) ∧
      (∀ t, initNextBatchState.data "data" 0 t = 0) ∧
      initNextBatchState.seq_lens "data" 0 = 0) :=
  ⟨rfl, by rintro seq hseq _; rw [List.mem_singleton] at hseq; subst hseq; rfl,
    C10_zero_length_skip c10_gds ["data"] [c10_seqA] "data" 0 initNextBatchState rfl
      (by rintro seq hseq _; rw [List.mem_singleton] at hseq; subst hseq; rfl)⟩

end TFDP
